import Mathlib

/-!
Shallow embedding of the hydor runtime core (type checker, bytecode
encoding, stack-based VM) and proofs about its documented behaviour.

Modelling conventions:
* Rust `Vec`-based stacks are lists with the top of the stack at the
  head (Rust indexes the top as `stack[len - 1 - n]`; here that slot is
  list position `n`).
* Rust `f64` values are modelled as exact rationals (`ℚ`).  Every
  floating-point computation reached by a theorem below is exact in
  IEEE double precision (small integer arithmetic, division with exact
  quotient, `powf` with small integral arguments), so the rational
  model agrees with the machine semantics on those inputs.
* Fallible Rust functions taking `&mut self` are functions
  `HydorVM → HydorVM × Option HydorError` (or `× Except ...` when they
  also return data): the returned state reflects all mutations made
  before an early `return Err`, exactly as in the Rust code.
* `main.rs`, the parser, and the execution loop fields `instructions` /
  `debug_info` are not consulted by any verified statement; the VM
  record carries the fields the verified handlers read and write.
-/

/-- Modelled from the spec (§3): `Span {line, start_column, end_column}`;
the file `utils.rs` of the repository is not under `src/`. -/
structure Span where
  line : Nat
  start_column : Nat
  end_column : Nat
deriving DecidableEq

/-- Modelled from the spec: `Span::default()` is the derived Rust
`Default`, which zero-initializes every field. -/
def Span.default : Span := ⟨0, 0, 0⟩

/-- Modelled from the spec (§3): the static `Type` enumeration
{Integer, Float, Boolean, String} produced by the type checker
(`type_checker.rs` is not under `src/`; `binary_expr.rs` uses the
variants `Integer`, `Float`, `Bool`, `String`).  A `Nil` tag is
included because the runtime `get_type` (§4.1) must also map the `Nil`
value to a tag for error messages.  Named `HydorType` because `Type`
is reserved in Lean. -/
inductive HydorType where
  | Integer
  | Float
  | Bool
  | String
  | Nil
deriving DecidableEq

/-- Modelled from the spec (§3): `RuntimeValue` tagged union —
Integer(32-bit signed), Float(64-bit), Boolean, String(index into the
string table), Nil (`runtime_value.rs` is not under `src/`; the
variant names appear throughout `vm.rs`).  The `i32` payload is
carried as `Int` and the `f64` payload as `ℚ` (see the module
comment). -/
inductive RuntimeValue where
  | IntegerLiteral (n : Int)
  | FloatLiteral (q : ℚ)
  | BooleanLiteral (b : Bool)
  | StringLiteral (idx : Nat)
  | NilLiteral
deriving DecidableEq

/-- Modelled from the spec (§4.1): `is_number` holds of Integer and
Float variants. -/
def RuntimeValue.is_number : RuntimeValue → Bool
  | .IntegerLiteral _ => true
  | .FloatLiteral _ => true
  | _ => false

/-- Modelled from the spec (§4.1): `is_float` holds of the Float
variant. -/
def RuntimeValue.is_float : RuntimeValue → Bool
  | .FloatLiteral _ => true
  | _ => false

/-- Modelled from the spec (§4.1): `as_number` unifies Integer/Float
into a 64-bit float (here an exact rational); undefined on other
variants. -/
def RuntimeValue.as_number : RuntimeValue → Option ℚ
  | .IntegerLiteral n => some (n : ℚ)
  | .FloatLiteral q => some q
  | _ => none

/-- Modelled from the spec (§4.1): `get_type` maps a runtime value to
its human-readable type tag for error messages. -/
def RuntimeValue.get_type : RuntimeValue → HydorType
  | .IntegerLiteral _ => .Integer
  | .FloatLiteral _ => .Float
  | .BooleanLiteral _ => .Bool
  | .StringLiteral _ => .String
  | .NilLiteral => .Nil

/-- Models the Rust `matches!(v, RuntimeValue::StringLiteral(_))` test
used by `binary_op_add` in `vm.rs`. -/
def RuntimeValue.is_string_value : RuntimeValue → Bool
  | .StringLiteral _ => true
  | _ => false

/-- Modelled from the spec (§4.4): `is_truthy` — `Boolean(false)` and
`Nil` are falsy; every other value is truthy (`vm.rs` calls
`self.is_truthy`, whose definition is not under `src/`). -/
def is_truthy : RuntimeValue → Bool
  | .BooleanLiteral false => false
  | .NilLiteral => false
  | _ => true

/-- Modelled from the spec (§7): the error taxonomy; `errors.rs` is not
under `src/` but every construction site appears in `vm.rs` /
`binary_expr.rs`, fixing the fields. -/
inductive HydorError where
  | StackOverflow (stack_length : Nat) (span : Span)
  | StackUnderflow (stack_length : Nat) (span : Span)
  | ArithmeticError (operation : String) (left_type : HydorType)
      (right_type : HydorType) (span : Span)
  | UnaryOperationError (operation : String) (operand_type : HydorType)
      (span : Span)
  | ComparisonOperationError (operation : String) (blame_type : HydorType)
      (span : Span)
  | InvalidBinaryOp (operator : String) (left_type : HydorType)
      (right_type : HydorType) (span : Span)
deriving DecidableEq

-- `const BOOLEAN_TRUE / BOOLEAN_FALSE / NIL_LITERAL` (vm.rs).
def BOOLEAN_TRUE : RuntimeValue := .BooleanLiteral true

def BOOLEAN_FALSE : RuntimeValue := .BooleanLiteral false

def NIL_LITERAL : RuntimeValue := .NilLiteral

-- `const MAX_STACK: usize = 10_000` (vm.rs).
def MAX_STACK : Nat := 10000

/-- `struct StackValue { value, span }` (vm.rs). -/
structure StackValue where
  value : RuntimeValue
  span : Span
deriving DecidableEq

/-- `struct HydorVM` (vm.rs), restricted to the fields read or written
by the verified handlers (see the module comment).  The head of
`stack` is the top of the stack. -/
structure HydorVM where
  stack : List StackValue
  last_pop : Option RuntimeValue
  string_table : List String
  constants : List RuntimeValue
deriving DecidableEq

/-- `fn push` (vm.rs): fails with `StackOverflow` when the stack
already holds `MAX_STACK` (or more) slots, leaving the state
unchanged; otherwise appends the slot. -/
def HydorVM.push (vm : HydorVM) (value : RuntimeValue) (span : Span) :
    HydorVM × Option HydorError :=
  if MAX_STACK ≤ vm.stack.length then
    (vm, some (.StackOverflow vm.stack.length span))
  else
    ({ vm with stack := ⟨value, span⟩ :: vm.stack }, none)

/-- `fn peek_offset` (vm.rs): value of the slot `n` positions below the
top; `StackUnderflow` (actual length, default span) when out of
range. -/
def HydorVM.peek_offset (vm : HydorVM) (n : Nat) :
    Except HydorError RuntimeValue :=
  if h : vm.stack.length ≤ n then
    .error (.StackUnderflow vm.stack.length Span.default)
  else
    .ok (vm.stack.get ⟨n, Nat.lt_of_not_le h⟩).value

/-- `fn peek_span` (vm.rs). -/
def HydorVM.peek_span (vm : HydorVM) (n : Nat) : Except HydorError Span :=
  if h : vm.stack.length ≤ n then
    .error (.StackUnderflow vm.stack.length Span.default)
  else
    .ok (vm.stack.get ⟨n, Nat.lt_of_not_le h⟩).span

/-- `fn set_offset_value` (vm.rs): overwrite the value (keeping the
span) of the slot `n` positions below the top. -/
def HydorVM.set_offset_value (vm : HydorVM) (n : Nat)
    (new_value : RuntimeValue) : HydorVM × Option HydorError :=
  if h : vm.stack.length ≤ n then
    (vm, some (.StackUnderflow vm.stack.length Span.default))
  else
    let sv := vm.stack.get ⟨n, Nat.lt_of_not_le h⟩
    ({ vm with stack := vm.stack.set n { sv with value := new_value } }, none)

/-- `fn pop_value` (vm.rs): `StackUnderflow {stack_length: 0}` with the
default span on an empty stack. -/
def HydorVM.pop_value (vm : HydorVM) :
    HydorVM × Except HydorError RuntimeValue :=
  match vm.stack with
  | [] => (vm, .error (.StackUnderflow 0 Span.default))
  | sv :: rest => ({ vm with stack := rest }, .ok sv.value)

/-- `fn pop_with_span` (vm.rs). -/
def HydorVM.pop_with_span (vm : HydorVM) :
    HydorVM × Except HydorError (RuntimeValue × Span) :=
  match vm.stack with
  | [] => (vm, .error (.StackUnderflow 0 Span.default))
  | sv :: rest => ({ vm with stack := rest }, .ok (sv.value, sv.span))

/-- `fn resolve_string` (vm.rs): `&self.string_table[index]`; the index
is valid by the String-variant invariant (§3), so the default for the
out-of-range case is never observed. -/
def HydorVM.resolve_string (vm : HydorVM) (index : Nat) : String :=
  vm.string_table.getD index ""

/-- Models `Iterator::position`: index of the first element satisfying
the predicate. -/
def position (p : α → Bool) : List α → Option Nat
  | [] => none
  | a :: l => if p a then some 0 else (position p l).map (· + 1)

/-- `fn intern_string` (vm.rs and loaders.rs, identical): return the
index of an existing equal entry, else append and return the new
index. -/
def HydorVM.intern_string (vm : HydorVM) (s : String) : HydorVM × Nat :=
  match position (fun existing => existing == s) vm.string_table with
  | some pos => (vm, pos)
  | none =>
      ({ vm with string_table := vm.string_table ++ [s] },
        vm.string_table.length)

/-- `fn values_equal` (vm.rs): structural equality; Integer/Float pairs
compare as widened floats; String pairs compare by table index; all
other mixed pairs are unequal.  The `&self` receiver is unused in the
Rust code — the string table is never consulted. -/
def HydorVM.values_equal (_vm : HydorVM) (left right : RuntimeValue) : Bool :=
  match left, right with
  | .IntegerLiteral a, .IntegerLiteral b => a == b
  | .FloatLiteral a, .FloatLiteral b => a == b
  | .BooleanLiteral a, .BooleanLiteral b => a == b
  | .StringLiteral a, .StringLiteral b => a == b
  | .NilLiteral, .NilLiteral => true
  | .IntegerLiteral a, .FloatLiteral b => (a : ℚ) == b
  | .FloatLiteral a, .IntegerLiteral b => a == (b : ℚ)
  | _, _ => false

/-- Models `f64::trunc`: round toward zero (exact on rationals). -/
def rat_trunc (q : ℚ) : Int :=
  if q.num < 0 then -(Int.ofNat (q.num.natAbs / q.den))
  else Int.ofNat (q.num.natAbs / q.den)

/-- Models `f64::fract`: `self - self.trunc()`. -/
def f64_fract (q : ℚ) : ℚ := q - (rat_trunc q : ℚ)

/-- Models the Rust cast `result as i32`: truncate toward zero and
saturate at the `i32` bounds. -/
def f64_as_i32 (q : ℚ) : Int :=
  max (-2147483648) (min 2147483647 (rat_trunc q))

/-- Models `f64::powf` on the rational embedding.  For an integral
exponent this is the exact power, which is what IEEE `powf` returns on
the small integral inputs reached by the theorems below; a
non-integral exponent never occurs in a verified statement and is
mapped to `0`. -/
def powf (a b : ℚ) : ℚ :=
  if b.den = 1 then a ^ b.num else 0

/-- The operand-widening match at the top of `compute_numeric` (vm.rs):
`IntegerLiteral(n) => n as f64`, `FloatLiteral(n) => n`; other
variants are `unreachable!` (callers guard with `is_number`) and are
mapped to `0`. -/
def numeric_as_f64 : RuntimeValue → ℚ
  | .IntegerLiteral n => (n : ℚ)
  | .FloatLiteral q => q
  | _ => 0

/-- `fn compute_numeric` (vm.rs): widen both operands to `f64`, apply
`f`, and re-narrow — if neither operand was a Float and the result has
zero fractional part, produce an Integer (casting the float result to
`i32`), else a Float. -/
def HydorVM.compute_numeric (left right : RuntimeValue)
    (f : ℚ → ℚ → ℚ) : RuntimeValue :=
  let a := numeric_as_f64 left
  let b := numeric_as_f64 right
  let result := f a b
  if !left.is_float && !right.is_float && f64_fract result == 0 then
    .IntegerLiteral (f64_as_i32 result)
  else
    .FloatLiteral result

/-- The result-span merge used by the binary handlers (vm.rs): start of
the left span, end of the right span. -/
def merge_spans (left_span right_span : Span) : Span :=
  ⟨left_span.line, left_span.start_column, right_span.end_column⟩

/-- `fn binary_op_numeric` (vm.rs): pop right then left; fail with
`ArithmeticError` (blaming the left span if the left operand is
non-numeric, else the right span); otherwise push the re-narrowed
result under the merged span. -/
def HydorVM.binary_op_numeric (vm : HydorVM) (op_name : String)
    (f : ℚ → ℚ → ℚ) : HydorVM × Option HydorError :=
  match vm.pop_with_span with
  | (vm1, .error e) => (vm1, some e)
  | (vm1, .ok (right, right_span)) =>
    match vm1.pop_with_span with
    | (vm2, .error e) => (vm2, some e)
    | (vm2, .ok (left, left_span)) =>
      if !left.is_number then
        (vm2, some (.ArithmeticError op_name left.get_type right.get_type
          left_span))
      else if !right.is_number then
        (vm2, some (.ArithmeticError op_name left.get_type right.get_type
          right_span))
      else
        vm2.push (HydorVM.compute_numeric left right f)
          (merge_spans left_span right_span)

/-- `fn string_concat` (vm.rs): resolve both indices, concatenate,
intern the result, push a String value under the merged span. -/
def HydorVM.string_concat (vm : HydorVM) (left : RuntimeValue)
    (left_span : Span) (right : RuntimeValue) (right_span : Span) :
    HydorVM × Option HydorError :=
  let left_idx := match left with | .StringLiteral v => v | _ => 0
  let right_idx := match right with | .StringLiteral v => v | _ => 0
  let concatenated := vm.resolve_string left_idx ++ vm.resolve_string right_idx
  let interned := vm.intern_string concatenated
  interned.1.push (.StringLiteral interned.2) (merge_spans left_span right_span)

/-- `fn binary_op_add` (vm.rs): pop right then left; concatenate when
both operands are Strings; otherwise require both numeric (same error
blame as `binary_op_numeric`) and push the re-narrowed sum. -/
def HydorVM.binary_op_add (vm : HydorVM) : HydorVM × Option HydorError :=
  match vm.pop_with_span with
  | (vm1, .error e) => (vm1, some e)
  | (vm1, .ok (right, right_span)) =>
    match vm1.pop_with_span with
    | (vm2, .error e) => (vm2, some e)
    | (vm2, .ok (left, left_span)) =>
      if left.is_string_value && right.is_string_value then
        vm2.string_concat left left_span right right_span
      else if !left.is_number then
        (vm2, some (.ArithmeticError "addition" left.get_type right.get_type
          left_span))
      else if !right.is_number then
        (vm2, some (.ArithmeticError "addition" left.get_type right.get_type
          right_span))
      else
        vm2.push (HydorVM.compute_numeric left right (fun a b => a + b))
          (merge_spans left_span right_span)

/-- `fn unary_not_operation` (vm.rs / unary.rs): replace the top value
by the Boolean negation of its truthiness, in place. -/
def HydorVM.unary_not_operation (vm : HydorVM) : HydorVM × Option HydorError :=
  match vm.peek_offset 0 with
  | .error e => (vm, some e)
  | .ok target =>
    if is_truthy target then vm.set_offset_value 0 BOOLEAN_FALSE
    else vm.set_offset_value 0 BOOLEAN_TRUE

/-- The opcode enumeration.  `src/bytecode/bytecode.rs` declares a
stale three-variant subset (`Halt = 0x01`, `Pop = 0x02`,
`LoadConstant = 0x03`); the remaining variant names are modelled from
the opcode catalogue of the spec (§4.2) and the dispatch match in
`vm.rs`. -/
inductive OpCode where
  | Halt
  | Pop
  | LoadConstant
  | LoadString
  | LoadNil
  | LoadBoolTrue
  | LoadBoolFalse
  | Add
  | Subtract
  | Multiply
  | Divide
  | Exponent
  | UnaryNegate
  | UnaryNot
  | CompareLess
  | CompareLessEqual
  | CompareGreater
  | CompareGreaterEqual
  | CompareEqual
  | CompareNotEqual
deriving DecidableEq

/-- The derived `IntoPrimitive` conversion (`opcode.into()`).
`src/bytecode/bytecode.rs` fixes the discriminants of `Halt`, `Pop`
and `LoadConstant` only; the byte values of the remaining variants do
not appear under `src/` and are mapped to `0` — they are unreachable from
`make`, which consults `get_definition` first. -/
def OpCode.into_u8 : OpCode → Nat
  | .Halt => 1
  | .Pop => 2
  | .LoadConstant => 3
  | _ => 0

/-- `struct Definition { name, operands_width }` (bytecode.rs). -/
structure Definition where
  name : String
  operands_width : List Nat
deriving DecidableEq

/-- `fn get_definition` (bytecode.rs): declared operand widths.  The
match in `src/` covers exactly `LoadConstant`, `Halt` and `Pop`;
opcodes without a definition under `src/` yield `none`. -/
def OpCode.get_definition : OpCode → Option Definition
  | .LoadConstant => some ⟨"LOAD_CONSTANT", [2]⟩
  | .Halt => some ⟨"HALT", []⟩
  | .Pop => some ⟨"POP", []⟩
  | _ => none

/-- Models `BigEndian::write_i16(&mut buf[offset..], operand as i16)`:
the two bytes written are the big-endian bytes of the operand
modulo 2^16 (twos-complement and unsigned agree byte-wise). -/
def write_u16_be (buf : List Nat) (offset : Nat) (operand : Int) :
    List Nat :=
  let v := (operand % 65536).toNat
  (buf.set offset (v / 256)).set (offset + 1) (v % 256)

/-- The operand-writing loop of `OpCode::make` (bytecode.rs): each
operand is written at the running offset with its declared width; an
operand beyond the declared widths is a Rust index panic (`none`), and
a width other than 2 is the `unreachable!` arm (`none`). -/
def make_operands (widths : List Nat) (operands : List Int) (offset : Nat)
    (buf : List Nat) : Option (List Nat) :=
  match operands, widths with
  | [], _ => some buf
  | _ :: _, [] => none
  | op :: ops, w :: ws =>
    match w with
    | 2 => make_operands ws ops (offset + 2) (write_u16_be buf offset op)
    | _ => none

/-- `fn make` (bytecode.rs): allocate `1 + sum(widths)` zero bytes, put
the opcode tag in byte 0, then write the operands big-endian.  The
Rust function drops the buffer it builds; the buffer itself is the
object of interest and is returned here.  Construction-time panics
(`unreachable!`, out-of-range operand index, missing definition) are
`none`. -/
def OpCode.make (opcode : OpCode) (operands : List Int) :
    Option (List Nat) :=
  match opcode.get_definition with
  | none => none
  | some definition =>
    let instruction_length :=
      definition.operands_width.foldl (fun acc w => acc + w) 1
    let instructions :=
      (List.replicate instruction_length 0).set 0 opcode.into_u8
    make_operands definition.operands_width operands 1 instructions

/-- `impl ToOpcode for u8` (bytecode.rs): bytes `0x01`–`0x03` decode to
the three declared opcodes; any other byte is the `unreachable!` arm
(`none`). -/
def to_opcode (b : Nat) : Option OpCode :=
  match b with
  | 1 => some .Halt
  | 2 => some .Pop
  | 3 => some .LoadConstant
  | _ => none

/-- Modelled from the spec (§4.2): `read_uint16` reads a big-endian
unsigned 16-bit operand at the given offset (`read_uint16` is called
from `vm.rs` / `loaders.rs` but its definition is not under
`src/`). -/
def read_uint16 (ins : List Nat) (offset : Nat) : Nat :=
  ins.getD offset 0 * 256 + ins.getD (offset + 1) 0

/-- `fn opcode_to_operator` (vm.rs). -/
def opcode_to_operator : OpCode → String
  | .CompareLess => "<"
  | .CompareLessEqual => "<="
  | .CompareGreater => ">"
  | .CompareGreaterEqual => ">="
  | .CompareEqual => "=="
  | .CompareNotEqual => "!="
  | _ => "?"

/-- `fn compare_numbers` (vm.rs): compare the widened float values of
two numeric operands with the requested relational operator and push
the Boolean result; the `unwrap` calls are guarded by the `is_number`
test of the caller (`getD 0` is unreachable). -/
def HydorVM.compare_numbers (vm : HydorVM) (opcode : OpCode)
    (left right : RuntimeValue) (span : Span) :
    HydorVM × Option HydorError :=
  let left_num := left.as_number.getD 0
  let right_num := right.as_number.getD 0
  let result :=
    match opcode with
    | .CompareLess => decide (left_num < right_num)
    | .CompareLessEqual => decide (left_num ≤ right_num)
    | .CompareGreater => decide (right_num < left_num)
    | .CompareGreaterEqual => decide (right_num ≤ left_num)
    | .CompareEqual => left_num == right_num
    | .CompareNotEqual => !(left_num == right_num)
    | _ => false
  vm.push (if result then BOOLEAN_TRUE else BOOLEAN_FALSE) span

/-- `fn compare_operation` (vm.rs): pop right then left; numeric pairs
go through `compare_numbers`; otherwise only `==`/`!=` are legal (via
`values_equal`), and the four ordering operators fail with
`ComparisonOperationError` blaming the type of the non-numeric
operand (left checked first). -/
def HydorVM.compare_operation (vm : HydorVM) (opcode : OpCode)
    (span : Span) : HydorVM × Option HydorError :=
  match vm.pop_with_span with
  | (vm1, .error e) => (vm1, some e)
  | (vm1, .ok (right_val, _right_span)) =>
    match vm1.pop_with_span with
    | (vm2, .error e) => (vm2, some e)
    | (vm2, .ok (left_val, _left_span)) =>
      if left_val.is_number && right_val.is_number then
        vm2.compare_numbers opcode left_val right_val span
      else
        match opcode with
        | .CompareEqual =>
          vm2.push
            (if vm2.values_equal left_val right_val then BOOLEAN_TRUE
             else BOOLEAN_FALSE) span
        | .CompareNotEqual =>
          vm2.push
            (if vm2.values_equal left_val right_val then BOOLEAN_FALSE
             else BOOLEAN_TRUE) span
        | _ =>
          let blame_type :=
            if !left_val.is_number then left_val.get_type
            else right_val.get_type
          (vm2, some (.ComparisonOperationError (opcode_to_operator opcode)
            blame_type span))

/-- The binary-operator token kinds matched by `check_binary_expr`
(`binary_expr.rs`); the full `TokenType` enumeration is not under
`src/` and only these variants are modelled. -/
inductive TokenType where
  | Plus
  | Minus
  | Asterisk
  | Slash
  | Caret
  | LessThan
  | LessThanEqual
  | GreaterThan
  | GreaterThanEqual
  | Equal
  | NotEqual
deriving DecidableEq

/-- Modelled from the spec: the operator text used in diagnostics
(`operator.get_token_type().to_string()`); `tokens.rs` is not under
`src/`. -/
def TokenType.to_string : TokenType → String
  | .Plus => "+"
  | .Minus => "-"
  | .Asterisk => "*"
  | .Slash => "/"
  | .Caret => "^"
  | .LessThan => "<"
  | .LessThanEqual => "<="
  | .GreaterThan => ">"
  | .GreaterThanEqual => ">="
  | .Equal => "=="
  | .NotEqual => "!="

/-- `fn check_binary_expr` (binary_expr.rs), parameterised by the
results of the two recursive `check_expression` calls (the recursion
target is not under `src/`): returns the inferred static type, if
any, together with the diagnostics thrown through `throw_error`.  A
failed operand (`None`, i.e. the `?` early return) aborts the node
with no further diagnostic. -/
def check_binary_expr (operator : TokenType)
    (left_type right_type : Option HydorType) (span : Span) :
    Option HydorType × List HydorError :=
  match left_type with
  | none => (none, [])
  | some lt =>
    match right_type with
    | none => (none, [])
    | some rt =>
      match operator with
      | .Plus =>
        if lt ≠ rt then
          (none, [.InvalidBinaryOp TokenType.Plus.to_string lt rt span])
        else if lt = .Integer ∨ lt = .Float then (some lt, [])
        else if lt = .String then (some lt, [])
        else (none, [.InvalidBinaryOp TokenType.Plus.to_string lt rt span])
      | .Minus | .Asterisk | .Slash | .Caret =>
        if lt ≠ rt then
          (none, [.InvalidBinaryOp operator.to_string lt rt span])
        else if lt ≠ .Integer ∧ lt ≠ .Float then
          (none, [.InvalidBinaryOp operator.to_string lt rt span])
        else (some lt, [])
      | .LessThan | .LessThanEqual | .GreaterThan | .GreaterThanEqual =>
        if lt ≠ rt then
          (none, [.InvalidBinaryOp operator.to_string lt rt span])
        else if lt ≠ .Integer ∧ lt ≠ .Float then
          (none, [.InvalidBinaryOp operator.to_string lt rt span])
        else (some .Bool, [])
      | .Equal | .NotEqual =>
        if lt ≠ rt then
          (none, [.InvalidBinaryOp operator.to_string lt rt span])
        else (some .Bool, [])

/-- C1: a binary arithmetic instruction on two numeric operands widens
both to 64-bit float, applies the operator, and re-narrows: the result
is an Integer (the float result cast to 32-bit) exactly when neither
operand was a Float and the float result has zero fractional part, and
a Float otherwise; in particular Integer(6) / Integer(3) = Integer(2),
Integer(1) / Integer(3) is a Float, Integer(2) ^ Integer(3) =
Integer(8). -/
theorem compute_numeric_renarrows
    (left right : RuntimeValue) (f : ℚ → ℚ → ℚ)
    (hl : left.is_number = true) (hr : right.is_number = true) :
    ((left.is_float = false ∧ right.is_float = false ∧
        f64_fract (f (numeric_as_f64 left) (numeric_as_f64 right)) = 0) →
          HydorVM.compute_numeric left right f =
            .IntegerLiteral
              (f64_as_i32 (f (numeric_as_f64 left) (numeric_as_f64 right))))
    ∧ ((left.is_float = true ∨ right.is_float = true ∨
        ¬ f64_fract (f (numeric_as_f64 left) (numeric_as_f64 right)) = 0) →
          HydorVM.compute_numeric left right f =
            .FloatLiteral (f (numeric_as_f64 left) (numeric_as_f64 right)))
    ∧ ((∃ n, HydorVM.compute_numeric left right f = .IntegerLiteral n) ↔
        (left.is_float = false ∧ right.is_float = false ∧
          f64_fract (f (numeric_as_f64 left) (numeric_as_f64 right)) = 0))
    ∧ ((HydorVM.mk [⟨.IntegerLiteral 3, Span.default⟩, ⟨.IntegerLiteral 6, Span.default⟩]
          none [] []).binary_op_numeric "division" (fun a b => a / b)
        = (HydorVM.mk [⟨.IntegerLiteral 2, Span.default⟩] none [] [], none))
    ∧ (∃ q : ℚ,
        (HydorVM.mk [⟨.IntegerLiteral 3, Span.default⟩, ⟨.IntegerLiteral 1, Span.default⟩]
          none [] []).binary_op_numeric "division" (fun a b => a / b)
        = (HydorVM.mk [⟨.FloatLiteral q, Span.default⟩] none [] [], none))
    ∧ ((HydorVM.mk [⟨.IntegerLiteral 3, Span.default⟩, ⟨.IntegerLiteral 2, Span.default⟩]
          none [] []).binary_op_numeric "exponentiation" powf
        = (HydorVM.mk [⟨.IntegerLiteral 8, Span.default⟩] none [] [], none)) := by
  refine ⟨?_, ?_, ?_, ?_, ?_, ?_⟩
  · rintro ⟨h1, h2, h3⟩
    simp [HydorVM.compute_numeric, h1, h2, h3]
  · rintro (h | h | h)
    · simp [HydorVM.compute_numeric, h]
    · simp [HydorVM.compute_numeric, h]
    · cases hf1 : left.is_float <;> cases hf2 : right.is_float <;>
        simp [HydorVM.compute_numeric, hf1, hf2, beq_iff_eq, h]
  · cases hf1 : left.is_float <;> cases hf2 : right.is_float <;>
      by_cases hq : f64_fract (f (numeric_as_f64 left) (numeric_as_f64 right)) = 0 <;>
      simp [HydorVM.compute_numeric, hf1, hf2, beq_iff_eq, hq]
  · norm_num [HydorVM.binary_op_numeric, HydorVM.pop_with_span, HydorVM.push,
      HydorVM.compute_numeric, numeric_as_f64, f64_fract, rat_trunc, f64_as_i32,
      RuntimeValue.is_number, RuntimeValue.is_float, merge_spans, MAX_STACK, Span.default]
  · refine ⟨1 / 3, ?_⟩
    norm_num [HydorVM.binary_op_numeric, HydorVM.pop_with_span, HydorVM.push,
      HydorVM.compute_numeric, numeric_as_f64, f64_fract, rat_trunc, f64_as_i32,
      RuntimeValue.is_number, RuntimeValue.is_float, merge_spans, MAX_STACK, Span.default]
  · norm_num [HydorVM.binary_op_numeric, HydorVM.pop_with_span, HydorVM.push,
      HydorVM.compute_numeric, numeric_as_f64, f64_fract, rat_trunc, f64_as_i32, powf,
      RuntimeValue.is_number, RuntimeValue.is_float, merge_spans, MAX_STACK, Span.default]

theorem compute_numeric_renarrows_witness :
    HydorVM.compute_numeric (.IntegerLiteral 6) (.IntegerLiteral 3)
        (fun a b => a / b)
      = .IntegerLiteral (f64_as_i32
          ((fun a b : ℚ => a / b) (numeric_as_f64 (.IntegerLiteral 6))
            (numeric_as_f64 (.IntegerLiteral 3)))) :=
  (compute_numeric_renarrows (.IntegerLiteral 6) (.IntegerLiteral 3)
      (fun a b => a / b) rfl rfl).1
    ⟨rfl, rfl, by norm_num [f64_fract, rat_trunc, numeric_as_f64]⟩

/-- C2: executing CompareEqual on operands Integer(2) and Float(2.0)
pushes Boolean(true), while the static checker, given an equality
whose operands type to Integer and Float, records an InvalidBinaryOp
diagnostic and returns no type; both hold simultaneously. -/
theorem cross_type_equality_asymmetry (sL sR s : Span) :
    ((HydorVM.mk [⟨.FloatLiteral 2, sR⟩, ⟨.IntegerLiteral 2, sL⟩]
        none [] []).compare_operation .CompareEqual s
      = (HydorVM.mk [⟨BOOLEAN_TRUE, s⟩] none [] [], none))
    ∧ check_binary_expr .Equal (some .Integer) (some .Float) s
      = (none, [.InvalidBinaryOp "==" .Integer .Float s]) := by
  constructor
  · norm_num [HydorVM.compare_operation, HydorVM.pop_with_span, HydorVM.compare_numbers,
      HydorVM.push, RuntimeValue.is_number, RuntimeValue.as_number, MAX_STACK, BOOLEAN_TRUE]
  · rfl

theorem unary_not_flips_truthiness (sv : StackValue) (rest : List StackValue)
    (lp : Option RuntimeValue) (st : List String) (cs : List RuntimeValue) :
    ((HydorVM.mk (sv :: rest) lp st cs).unary_not_operation
      = (HydorVM.mk (⟨.BooleanLiteral (!is_truthy sv.value), sv.span⟩ :: rest) lp st cs,
          none))
    ∧ ((HydorVM.mk [⟨BOOLEAN_FALSE, Span.default⟩] none [] []).unary_not_operation
      = (HydorVM.mk [⟨BOOLEAN_TRUE, Span.default⟩] none [] [], none))
    ∧ ((HydorVM.mk [⟨.IntegerLiteral 0, Span.default⟩] none [] []).unary_not_operation
      = (HydorVM.mk [⟨BOOLEAN_FALSE, Span.default⟩] none [] [], none))
    ∧ ((HydorVM.mk [⟨NIL_LITERAL, Span.default⟩] none [] []).unary_not_operation
      = (HydorVM.mk [⟨BOOLEAN_TRUE, Span.default⟩] none [] [], none)) := by
  refine ⟨?_, by decide, by decide, by decide⟩
  cases h : is_truthy sv.value <;>
    simp [HydorVM.unary_not_operation, HydorVM.peek_offset, HydorVM.set_offset_value,
      BOOLEAN_TRUE, BOOLEAN_FALSE, h]

/-- C7: under the stack invariant (length at most the maximum), push
fails with StackOverflow carrying the current length and leaves the
state unchanged exactly when the length equals MAX_STACK = 10000;
pop_value and pop_with_span fail with StackUnderflow exactly on the
empty stack and otherwise remove and return the top slot. -/
theorem stack_discipline (vm : HydorVM) (v : RuntimeValue) (s : Span)
    (h : vm.stack.length ≤ MAX_STACK) :
    (vm.stack.length = MAX_STACK →
      vm.push v s = (vm, some (.StackOverflow vm.stack.length s)))
    ∧ (vm.stack.length < MAX_STACK →
      vm.push v s = ({ vm with stack := ⟨v, s⟩ :: vm.stack }, none))
    ∧ (vm.stack = [] →
      vm.pop_value = (vm, .error (.StackUnderflow 0 Span.default))
      ∧ vm.pop_with_span = (vm, .error (.StackUnderflow 0 Span.default)))
    ∧ (∀ sv rest, vm.stack = sv :: rest →
      vm.pop_value = ({ vm with stack := rest }, .ok sv.value)
      ∧ vm.pop_with_span = ({ vm with stack := rest }, .ok (sv.value, sv.span))) := by
  refine ⟨?_, ?_, ?_, ?_⟩
  · intro heq
    simp [HydorVM.push, heq]
  · intro hlt
    simp [HydorVM.push, Nat.not_le_of_lt hlt]
  · intro hempty
    simp [HydorVM.pop_value, HydorVM.pop_with_span, hempty]
  · intro sv rest hcons
    simp [HydorVM.pop_value, HydorVM.pop_with_span, hcons]

theorem stack_discipline_witness :
    (HydorVM.mk (List.replicate MAX_STACK ⟨NIL_LITERAL, Span.default⟩) none [] []).push
        NIL_LITERAL Span.default
      = (HydorVM.mk (List.replicate MAX_STACK ⟨NIL_LITERAL, Span.default⟩) none [] [],
          some (.StackOverflow
            (HydorVM.mk (List.replicate MAX_STACK ⟨NIL_LITERAL, Span.default⟩)
              none [] []).stack.length Span.default)) :=
  (stack_discipline
      (HydorVM.mk (List.replicate MAX_STACK ⟨NIL_LITERAL, Span.default⟩) none [] [])
      NIL_LITERAL Span.default (by simp)).1 (by simp)

/-- C10: every StackUnderflow produced by peek_offset, peek_span,
set_offset_value, pop_value or pop_with_span carries the all-zero
default span, and the pop underflow errors report stack_length 0. -/
theorem underflow_errors_default_span (vm : HydorVM) (n : Nat) (v : RuntimeValue) :
    (vm.stack.length ≤ n →
      vm.peek_offset n = .error (.StackUnderflow vm.stack.length Span.default)
      ∧ vm.peek_span n = .error (.StackUnderflow vm.stack.length Span.default)
      ∧ vm.set_offset_value n v = (vm, some (.StackUnderflow vm.stack.length Span.default)))
    ∧ (vm.stack = [] →
      vm.pop_value = (vm, .error (.StackUnderflow 0 Span.default))
      ∧ vm.pop_with_span = (vm, .error (.StackUnderflow 0 Span.default))) := by
  constructor
  · intro hle
    simp [HydorVM.peek_offset, HydorVM.peek_span, HydorVM.set_offset_value, hle]
  · intro hempty
    simp [HydorVM.pop_value, HydorVM.pop_with_span, hempty]

theorem underflow_errors_default_span_witness :
    (HydorVM.mk [] none [] []).peek_offset 0
      = .error (.StackUnderflow (HydorVM.mk [] none [] []).stack.length Span.default)
    ∧ (HydorVM.mk [] none [] []).pop_value
      = (HydorVM.mk [] none [] [], .error (.StackUnderflow 0 Span.default)) :=
  ⟨((underflow_errors_default_span (HydorVM.mk [] none [] []) 0 NIL_LITERAL).1
      (by decide)).1,
    ((underflow_errors_default_span (HydorVM.mk [] none [] []) 0 NIL_LITERAL).2
      rfl).1⟩

/-- Helper: a list position search returning none means no element
satisfies the predicate. -/
theorem position_eq_none_forall {α : Type} (p : α → Bool) (l : List α)
    (h : position p l = none) : ∀ x ∈ l, p x = false := by
  induction l with
  | nil => simp
  | cons a t ih =>
    intro x hx
    rw [position] at h
    by_cases hp : p a
    · simp [hp] at h
    · rcases List.mem_cons.mp hx with hx | hx
      · simpa [hx] using hp
      · exact ih (by simpa [hp] using h) x hx

/-- Helper: appending a matching element to a match-free list makes the
position search find it at the old length. -/
theorem position_append_singleton {α : Type} (p : α → Bool) (l : List α) (x : α)
    (h : position p l = none) (hx : p x = true) :
    position p (l ++ [x]) = some l.length := by
  induction l with
  | nil => simp [position, hx]
  | cons a t ih =>
    rw [position] at h
    by_cases hp : p a
    · simp [hp] at h
    · rw [List.cons_append, position]
      simp only [hp, if_false]
      rw [ih (by simpa [hp] using h)]
      simp

/-- C5: interning the same text twice yields the same index both times
(the second intern returns the state and index of the first unchanged,
with no append), and interning preserves freedom from duplicates. -/
theorem intern_string_idempotent (vm : HydorVM) (s : String) :
    ((vm.intern_string s).1.intern_string s = vm.intern_string s)
    ∧ (vm.string_table.Nodup → (vm.intern_string s).1.string_table.Nodup) := by
  constructor
  · rcases hpos : position (fun existing => existing == s) vm.string_table with _ | pos
    · have hfind : position (fun existing => existing == s)
          (vm.string_table ++ [s]) = some vm.string_table.length :=
        position_append_singleton _ _ _ hpos (by simp)
      simp [HydorVM.intern_string, hpos, hfind]
    · simp [HydorVM.intern_string, hpos]
  · intro hnd
    rcases hpos : position (fun existing => existing == s) vm.string_table with _ | pos
    · have hnotmem : s ∉ vm.string_table := by
        intro hmem
        have := position_eq_none_forall _ _ hpos s hmem
        simp at this
      simp [HydorVM.intern_string, hpos, List.nodup_append, hnd, hnotmem]
    · simpa [HydorVM.intern_string, hpos] using hnd

theorem intern_string_idempotent_witness :
    ((HydorVM.mk [] none ["a"] []).intern_string "b").1.string_table.Nodup :=
  (intern_string_idempotent (HydorVM.mk [] none ["a"] []) "b").2 (by decide)

/-- C4 counterexample: with string table ["a", "a"], the two String
values with indices 0 and 1 denote equal texts, yet values_equal
returns false — the routine compares table indices, not text. -/
theorem values_equal_strings_counterexample :
    (HydorVM.mk [] none ["a", "a"] []).values_equal
        (.StringLiteral 0) (.StringLiteral 1) = false
    ∧ (HydorVM.mk [] none ["a", "a"] []).resolve_string 0
      = (HydorVM.mk [] none ["a", "a"] []).resolve_string 1 := by
  decide

/-- C4 amended: values_equal on two String values returns true exactly
when their table indices are equal; when the table has no duplicate
entries (the post-intern invariant) and both indices are in range,
this coincides with equality of the denoted texts. -/
theorem values_equal_strings_by_index (vm : HydorVM) (a b : Nat)
    (ha : a < vm.string_table.length) (hb : b < vm.string_table.length)
    (hnd : vm.string_table.Nodup) :
    (vm.values_equal (.StringLiteral a) (.StringLiteral b) = true ↔ a = b)
    ∧ (vm.values_equal (.StringLiteral a) (.StringLiteral b) = true ↔
        vm.string_table.get ⟨a, ha⟩ = vm.string_table.get ⟨b, hb⟩) := by
  have hidx : vm.values_equal (.StringLiteral a) (.StringLiteral b) = true ↔ a = b := by
    simp [HydorVM.values_equal]
  refine ⟨hidx, hidx.trans ?_⟩
  rw [hnd.get_inj_iff]
  simp [Fin.ext_iff]

theorem values_equal_strings_by_index_witness :
    (HydorVM.mk [] none ["x", "y"] []).values_equal
        (.StringLiteral 0) (.StringLiteral 0) = true ↔ (0 : Nat) = 0 :=
  (values_equal_strings_by_index (HydorVM.mk [] none ["x", "y"] []) 0 0
    (by decide) (by decide) (by decide)).1

/-- C3: for every opcode and operand list valid for the declared
operand widths, the encoder yields a buffer of length 1 + sum of the
widths, with the opcode tag in byte 0 and operands as big-endian u16;
decoding reproduces the opcode and the operand values. -/
theorem make_roundtrip (op : OpCode) (d : Definition) (operands : List Int)
    (hd : op.get_definition = some d)
    (hlen : operands.length = d.operands_width.length)
    (hvals : ∀ x ∈ operands, 0 ≤ x ∧ x < 65536) :
    ∃ buf, op.make operands = some buf
      ∧ buf.length = 1 + d.operands_width.sum
      ∧ buf.getD 0 0 = op.into_u8
      ∧ to_opcode (buf.getD 0 0) = some op
      ∧ ∀ i : Fin operands.length,
          (read_uint16 buf (1 + 2 * i.val) : Int) = operands.get i := by
  cases op <;> simp only [OpCode.get_definition] at hd <;>
    try exact Option.noConfusion hd
  case Halt =>
    obtain rfl : d = ⟨"HALT", []⟩ := by simpa using hd.symm
    obtain rfl : operands = [] := List.length_eq_zero.mp (by simpa using hlen)
    exact ⟨[1], rfl, by simp, rfl, rfl, by decide⟩
  case Pop =>
    obtain rfl : d = ⟨"POP", []⟩ := by simpa using hd.symm
    obtain rfl : operands = [] := List.length_eq_zero.mp (by simpa using hlen)
    exact ⟨[2], rfl, by simp, rfl, rfl, by decide⟩
  case LoadConstant =>
    obtain rfl : d = ⟨"LOAD_CONSTANT", [2]⟩ := by simpa using hd.symm
    obtain ⟨o, rfl⟩ : ∃ o, operands = [o] :=
      List.length_eq_one.mp (by simpa using hlen)
    obtain ⟨h0, h65536⟩ := hvals o (by simp)
    have hv : o % 65536 = o := Int.emod_eq_of_lt h0 h65536
    refine ⟨[3, (o % 65536).toNat / 256, (o % 65536).toNat % 256], rfl, by simp,
      rfl, rfl, ?_⟩
    intro i
    obtain ⟨i, hi⟩ := i
    simp only [List.length_cons, List.length_nil] at hi
    obtain rfl : i = 0 := by omega
    simp [read_uint16, List.getD, hv]
    omega

theorem make_roundtrip_witness :
    ∃ buf, OpCode.LoadConstant.make [300] = some buf
      ∧ buf.length = 1 + (Definition.mk "LOAD_CONSTANT" [2]).operands_width.sum
      ∧ buf.getD 0 0 = OpCode.LoadConstant.into_u8
      ∧ to_opcode (buf.getD 0 0) = some OpCode.LoadConstant
      ∧ ∀ i : Fin ([(300 : Int)]).length,
          (read_uint16 buf (1 + 2 * i.val) : Int) = ([(300 : Int)]).get i :=
  make_roundtrip OpCode.LoadConstant ⟨"LOAD_CONSTANT", [2]⟩ [300] rfl rfl (by decide)

/-- C8: a binary arithmetic instruction with a non-numeric popped
operand (and, for Add, operands that are not both Strings) fails with
ArithmeticError carrying the operation name and both operand type
tags, whose span is the left span when the left operand is non-numeric
and the right span otherwise. -/
theorem arithmetic_error_blame (rsv lsv : StackValue) (rest : List StackValue)
    (lp : Option RuntimeValue) (st : List String) (cs : List RuntimeValue)
    (op_name : String) (f : ℚ → ℚ → ℚ) :
    (lsv.value.is_number = false →
      (HydorVM.mk (rsv :: lsv :: rest) lp st cs).binary_op_numeric op_name f
        = (HydorVM.mk rest lp st cs,
            some (.ArithmeticError op_name lsv.value.get_type rsv.value.get_type
              lsv.span)))
    ∧ (lsv.value.is_number = true → rsv.value.is_number = false →
      (HydorVM.mk (rsv :: lsv :: rest) lp st cs).binary_op_numeric op_name f
        = (HydorVM.mk rest lp st cs,
            some (.ArithmeticError op_name lsv.value.get_type rsv.value.get_type
              rsv.span)))
    ∧ ((lsv.value.is_string_value && rsv.value.is_string_value) = false →
      lsv.value.is_number = false →
      (HydorVM.mk (rsv :: lsv :: rest) lp st cs).binary_op_add
        = (HydorVM.mk rest lp st cs,
            some (.ArithmeticError "addition" lsv.value.get_type rsv.value.get_type
              lsv.span)))
    ∧ ((lsv.value.is_string_value && rsv.value.is_string_value) = false →
      lsv.value.is_number = true → rsv.value.is_number = false →
      (HydorVM.mk (rsv :: lsv :: rest) lp st cs).binary_op_add
        = (HydorVM.mk rest lp st cs,
            some (.ArithmeticError "addition" lsv.value.get_type rsv.value.get_type
              rsv.span))) := by
  refine ⟨?_, ?_, ?_, ?_⟩
  · intro h1
    simp [HydorVM.binary_op_numeric, HydorVM.pop_with_span, h1]
  · intro h1 h2
    simp [HydorVM.binary_op_numeric, HydorVM.pop_with_span, h1, h2]
  · intro hs h1
    simp [HydorVM.binary_op_add, HydorVM.pop_with_span, hs, h1]
  · intro hs h1 h2
    simp [HydorVM.binary_op_add, HydorVM.pop_with_span, hs, h1, h2]

theorem arithmetic_error_blame_witness :
    (HydorVM.mk [⟨.IntegerLiteral 1, ⟨2, 2, 2⟩⟩, ⟨BOOLEAN_TRUE, ⟨1, 1, 1⟩⟩]
        none [] []).binary_op_numeric "subtraction" (fun a b => a - b)
      = (HydorVM.mk [] none [] [],
          some (.ArithmeticError "subtraction"
            (BOOLEAN_TRUE : RuntimeValue).get_type
            (RuntimeValue.IntegerLiteral 1).get_type ⟨1, 1, 1⟩)) :=
  (arithmetic_error_blame ⟨.IntegerLiteral 1, ⟨2, 2, 2⟩⟩ ⟨BOOLEAN_TRUE, ⟨1, 1, 1⟩⟩
      [] none [] [] "subtraction" (fun a b => a - b)).1 rfl

/-- Helper: the only error push can report is StackOverflow. -/
theorem push_snd_is_overflow (vm : HydorVM) (v : RuntimeValue) (s : Span)
    (e : HydorError) (h : (vm.push v s).2 = some e) :
    ∃ n sp, e = .StackOverflow n sp := by
  unfold HydorVM.push at h
  split at h
  · exact ⟨_, _, by simpa using h.symm⟩
  · simp at h

/-- C9: when a binary arithmetic or comparison instruction fails with
ArithmeticError or ComparisonOperationError, both operands have been
removed: the resulting state is the initial one with the top two stack
slots dropped, last_pop (and every other field) unchanged. -/
theorem type_error_pops_operands (vm : HydorVM) (op_name : String)
    (f : ℚ → ℚ → ℚ) (opcode : OpCode) (span : Span) :
    (∀ o lt rt sp,
      (vm.binary_op_numeric op_name f).2 = some (.ArithmeticError o lt rt sp) →
      (vm.binary_op_numeric op_name f).1 = { vm with stack := vm.stack.drop 2 })
    ∧ (∀ o lt rt sp,
      vm.binary_op_add.2 = some (.ArithmeticError o lt rt sp) →
      vm.binary_op_add.1 = { vm with stack := vm.stack.drop 2 })
    ∧ (∀ o bt sp,
      (vm.compare_operation opcode span).2
          = some (.ComparisonOperationError o bt sp) →
      (vm.compare_operation opcode span).1
          = { vm with stack := vm.stack.drop 2 }) := by
  obtain ⟨stack, lp, st, cs⟩ := vm
  rcases stack with _ | ⟨r, stack⟩
  · refine ⟨fun o a b c h => ?_, fun o a b c h => ?_, fun o a b h => ?_⟩ <;>
      simp [HydorVM.binary_op_numeric, HydorVM.binary_op_add,
        HydorVM.compare_operation, HydorVM.pop_with_span] at h
  rcases stack with _ | ⟨l, rest⟩
  · refine ⟨fun o a b c h => ?_, fun o a b c h => ?_, fun o a b h => ?_⟩ <;>
      simp [HydorVM.binary_op_numeric, HydorVM.binary_op_add,
        HydorVM.compare_operation, HydorVM.pop_with_span] at h
  refine ⟨?_, ?_, ?_⟩
  · intro o lt rt sp h
    cases h1 : l.value.is_number with
    | false => simp [HydorVM.binary_op_numeric, HydorVM.pop_with_span, h1]
    | true =>
      cases h2 : r.value.is_number with
      | false => simp [HydorVM.binary_op_numeric, HydorVM.pop_with_span, h1, h2]
      | true =>
        exfalso
        simp only [HydorVM.binary_op_numeric, HydorVM.pop_with_span, h1, h2,
          Bool.not_true, Bool.false_eq_true, if_false, if_neg] at h
        obtain ⟨n, sp2, hcon⟩ := push_snd_is_overflow _ _ _ _ h
        cases hcon
  · intro o lt rt sp h
    cases hs : (l.value.is_string_value && r.value.is_string_value) with
    | true =>
      exfalso
      simp only [HydorVM.binary_op_add, HydorVM.pop_with_span,
        HydorVM.string_concat, hs, if_true, if_pos] at h
      obtain ⟨n, sp2, hcon⟩ := push_snd_is_overflow _ _ _ _ h
      cases hcon
    | false =>
      cases h1 : l.value.is_number with
      | false => simp [HydorVM.binary_op_add, HydorVM.pop_with_span, hs, h1]
      | true =>
        cases h2 : r.value.is_number with
        | false => simp [HydorVM.binary_op_add, HydorVM.pop_with_span, hs, h1, h2]
        | true =>
          exfalso
          simp only [HydorVM.binary_op_add, HydorVM.pop_with_span, hs, h1, h2,
            Bool.not_true, Bool.false_eq_true, if_false, if_neg] at h
          obtain ⟨n, sp2, hcon⟩ := push_snd_is_overflow _ _ _ _ h
          cases hcon
  · intro o bt sp h
    cases hn : (l.value.is_number && r.value.is_number) with
    | true =>
      exfalso
      simp only [HydorVM.compare_operation, HydorVM.pop_with_span,
        HydorVM.compare_numbers, hn, if_true, if_pos] at h
      obtain ⟨n, sp2, hcon⟩ := push_snd_is_overflow _ _ _ _ h
      cases hcon
    | false =>
      cases opcode <;>
        first
        | (exfalso
           simp only [HydorVM.compare_operation, HydorVM.pop_with_span, hn,
             Bool.false_eq_true, if_false, if_neg] at h
           obtain ⟨n, sp2, hcon⟩ := push_snd_is_overflow _ _ _ _ h
           cases hcon)
        | simp [HydorVM.compare_operation, HydorVM.pop_with_span, hn]

theorem type_error_pops_operands_witness :
    ((HydorVM.mk [⟨.IntegerLiteral 1, Span.default⟩, ⟨BOOLEAN_TRUE, Span.default⟩]
        none [] []).binary_op_numeric "subtraction" (fun a b => a - b)).1
      = { HydorVM.mk [⟨.IntegerLiteral 1, Span.default⟩, ⟨BOOLEAN_TRUE, Span.default⟩]
            none [] [] with
          stack := (HydorVM.mk [⟨.IntegerLiteral 1, Span.default⟩,
            ⟨BOOLEAN_TRUE, Span.default⟩] none [] []).stack.drop 2 } :=
  (type_error_pops_operands
      (HydorVM.mk [⟨.IntegerLiteral 1, Span.default⟩, ⟨BOOLEAN_TRUE, Span.default⟩]
        none [] [])
      "subtraction" (fun a b => a - b) .CompareLess Span.default).1
    "subtraction" HydorType.Bool HydorType.Integer Span.default rfl
